import Mathlib

/-!
Shallow embedding of the runtime assessment engine of
`src/src/RuntimeAssessment.py` (class `RuntimeAssessment`), together with
theorems settling the claims about its specification.

Modelling conventions:
- Python floats and the values of the `metrics` dictionary are modelled as `ℚ`
  (`number_of_messages` is an `int` in the source and is modelled as `ℕ`).
- The external transport boundary (`rosnode.get_node_names()`,
  `rospy.get_time()`, the per-channel assessor message counters) is supplied as
  explicit inputs to each polling tick.
- A raised Python exception is modelled as `Option.none`.
- Logging calls (`self.logger.…`) are side effects on log files only and are
  not part of the engine state; they are elided.
-/

namespace RuntimeAssessment

/-- Lifecycle events of the `GlobalEvents` enum, as used by
`RuntimeAssessment.py` (`NODE_ADDED`, `NODE_REMOVED`, `ASSESSMENT_PAUSED`,
`ASSESSMENT_RESUMED`). -/
inductive GlobalEvents where
  | NODE_ADDED
  | NODE_REMOVED
  | ASSESSMENT_PAUSED
  | ASSESSMENT_RESUMED
deriving DecidableEq, Repr

/-- Mutable state of a `RuntimeAssessment` instance: the flags `is_paused`,
`is_running`, `assessment_over`, the bounded `global_event_queue`
(the Python queue stores `(datetime.now(), event)` pairs; the timestamps are
elided since no claim mentions them), `start_time`, and the three entries of
the `metrics` dictionary. -/
structure EngineState where
  is_paused : Bool
  is_running : Bool
  assessment_over : Bool
  global_event_queue : List GlobalEvents
  start_time : ℚ
  execution_time : ℚ
  number_of_messages : ℕ
  frequency : ℚ
deriving DecidableEq, Repr

/-- State set up by `__init__`: all flags `False`, empty event queue,
`start_time = float()` (i.e. `0.0`), metrics zeroed. -/
def initEngineState : EngineState :=
  { is_paused := false
    is_running := false
    assessment_over := false
    global_event_queue := []
    start_time := 0
    execution_time := 0
    number_of_messages := 0
    frequency := 0 }

/-- Embedding of `publish_global_event` acting on the queue: append the event,
then `if len(self.global_event_queue) > 10: self.global_event_queue.pop(0)`. -/
def publish_global_event (q : List GlobalEvents) (e : GlobalEvents) :
    List GlobalEvents :=
  let q' := q ++ [e]
  if 10 < q'.length then q'.drop 1 else q'

/-- Publishing an event updates only the `global_event_queue` field of the
engine state. -/
def publishEvent (s : EngineState) (e : GlobalEvents) : EngineState :=
  { s with global_event_queue := publish_global_event s.global_event_queue e }

/-- Embedding of `pause`: `if self.is_running: self.is_paused = True` (plus an
info log). No event is published by `pause` itself. -/
def pause (s : EngineState) : EngineState :=
  if s.is_running then { s with is_paused := true } else s

/-- Embedding of `resume`: `if self.is_paused:` clear `is_paused`, set
`is_running`, then `self.publish_global_event(GlobalEvents.ASSESSMENT_RESUMED)`.
That call is made without `await` on an `async def`, so it only creates a
coroutine object that is never executed: the append to `global_event_queue`
never happens, and the queue is left unchanged. -/
def resume (s : EngineState) : EngineState :=
  if s.is_paused then { s with is_paused := false, is_running := true } else s

/-- Embedding of `start_assessment`: record `self.start_time =
rospy.get_time()`, clear `is_paused`, set `is_running`. -/
def start_assessment (s : EngineState) (now : ℚ) : EngineState :=
  { s with start_time := now, is_paused := false, is_running := true }

/-- Embedding of `get_time_elapsed`: `rospy.get_time() - self.start_time`. -/
def get_time_elapsed (s : EngineState) (now : ℚ) : ℚ :=
  now - s.start_time

/-- Embedding of `aggregate_message_counts`:
`sum(obj.metrics['number_of_messages'] for obj in self.assessment_pool)`;
the pool is modelled by the list of the per-object message counts. -/
def aggregate_message_counts (pool : List ℕ) : ℕ :=
  pool.sum

/-- Embedding of `end_assessment`: set `metrics['execution_time']` from
`get_time_elapsed`, `metrics['number_of_messages']` from
`aggregate_message_counts`, then `metrics['frequency'] =
number_of_messages / execution_time` — this division is unguarded in the
source, and Python raises `ZeroDivisionError` when `execution_time == 0`
(modelled as `none`); finally clear `is_running` and `is_paused` and set
`assessment_over = True`. The `metric_assessment` call inside only logs
outcomes; it is modelled separately by `metric_assessment` below. -/
def end_assessment (s : EngineState) (now : ℚ) (pool : List ℕ) :
    Option EngineState :=
  let et := get_time_elapsed s now
  let n := aggregate_message_counts pool
  if et = 0 then
    none
  else
    some { s with
      execution_time := et
      number_of_messages := n
      frequency := (n : ℚ) / et
      is_running := false
      is_paused := false
      assessment_over := true }

/-- One interaction with the running engine: a polling-loop iteration of
`async_run` (carrying the tick's external inputs: `rospy.get_time()`, whether
`self.target_node in rosnode.get_node_names()`, and the assessor pool's
message counts at drain time), or an external call to `pause` / `resume`. -/
inductive Act where
  | poll (now : ℚ) (target_running : Bool) (pool : List ℕ)
  | pauseCall
  | resumeCall
deriving DecidableEq, Repr

/-- One iteration of the `while not rospy.is_shutdown() and not
self.assessment_over` loop body of `async_run` (with `rospy.is_shutdown()`
assumed `False`); when `assessment_over` is set the loop guard fails and the
body no longer runs, so the state is returned unchanged. `pause`/`resume`
calls arrive between iterations. -/
def async_run_tick (s : EngineState) : Act → Option EngineState
  | .poll now target_running pool =>
    if s.assessment_over then
      some s
    else if s.is_running then
      if s.is_paused then
        if ¬target_running then
          end_assessment (publishEvent s .NODE_REMOVED) now pool
        else
          some (publishEvent s .ASSESSMENT_PAUSED)
      else
        if ¬target_running then
          end_assessment (publishEvent s .NODE_REMOVED) now pool
        else
          some s
    else
      if target_running then
        some (start_assessment (publishEvent s .NODE_ADDED) now)
      else
        some s
  | .pauseCall => some (pause s)
  | .resumeCall => some (resume s)

/-- Embedding of running `async_run` through a finite sequence of interactions
(`none` propagates a raised exception). -/
def async_run (s : EngineState) : List Act → Option EngineState
  | [] => some s
  | a :: rest =>
    match async_run_tick s a with
    | none => none
    | some s' => async_run s' rest

/-- Python value appearing as a requirement target or range bound: a numeric
value or a non-numeric one (modelled by its string form). -/
inductive PyVal where
  | num (q : ℚ)
  | str (s : String)
deriving DecidableEq, Repr

/-- Modelled from the spec: `utils.is_numeric` (the `utils` module is not under
`src/`); per the spec a value is numeric or the comparison is invalid
("non-numeric target" / "value not numeric"). -/
def is_numeric : PyVal → Bool
  | .num _ => true
  | .str _ => false

/-- Shape of `req['target']` as `metric_assessment` inspects it: either a
scalar, or a list of dictionaries (`isinstance(target, list)`), each
dictionary modelled as an association list of key/value pairs in iteration
order. -/
inductive Target where
  | scalar (v : PyVal)
  | range (limits : List (List (String × PyVal)))
deriving DecidableEq, Repr

/-- Fields of a metric requirement read by `metric_assessment`
(`req['target']`, `req['tolerance']`, `req['comparator']`). -/
structure MetricReq where
  target : Target
  tolerance : ℚ
  comparator : String
deriving DecidableEq, Repr

/-- One entry of `self.metrics_assessment_pool`:
`{'metric': metric, 'requirements': requirements}`. -/
structure MetricSpec where
  metric : String
  requirements : List MetricReq
deriving DecidableEq, Repr

/-- Contents of the `self.metrics` dictionary, whose keys are exactly
`execution_time`, `number_of_messages` and `frequency`. -/
structure Metrics where
  execution_time : ℚ
  number_of_messages : ℚ
  frequency : ℚ
deriving DecidableEq, Repr

/-- Lookup in the `self.metrics` dictionary (`metric['metric'] in
list(self.metrics.keys())`, then `self.metrics[metric['metric']]`). -/
def metricsLookup (m : Metrics) : String → Option ℚ
  | "execution_time" => some m.execution_time
  | "number_of_messages" => some m.number_of_messages
  | "frequency" => some m.frequency
  | _ => none

/-- Modelled from the spec: `utils.check_value_params` on a range target (the
`utils` module is not under `src/`). Spec 4.1: pass iff "(min absent OR
observedValue ≥ min − tolerance) AND (max absent OR observedValue ≤ max +
tolerance)", where a strict comparator drops the tolerance-padded equality at
its bound. -/
def check_value_params_range (v : ℚ) (mn mx : Option ℚ) (comparator : String)
    (tolerance : ℚ) : Bool :=
  let lo := match mn with
    | none => true
    | some m => if comparator = ">" then decide (m < v) else decide (m - tolerance ≤ v)
  let hi := match mx with
    | none => true
    | some M => if comparator = "<" then decide (v < M) else decide (v ≤ M + tolerance)
  lo && hi

/-- Modelled from the spec: `utils.check_value_params` on a scalar numeric
target (the `utils` module is not under `src/`). Spec 4.1: equality
comparators are tolerance-padded, ordering comparators are exact. (The source
call site `check_value_params(value, target, tolerance, comparator)` swaps the
last two arguments relative to the range call site; the spec's intended
semantics is modelled.) -/
def check_value_params_scalar (v t tolerance : ℚ) (comparator : String) : Bool :=
  match comparator with
  | "=" => decide (|v - t| ≤ tolerance)
  | "!=" => decide (¬ |v - t| ≤ tolerance)
  | "<" => decide (v < t)
  | "<=" => decide (v ≤ t)
  | ">" => decide (t < v)
  | ">=" => decide (t ≤ v)
  | _ => false

/-- Scan of the bound dictionaries of a range target, in the order of
`for limit in target: for k, v in limit.items():` — a non-numeric value or a
key other than `"min"`/`"max"` is invalid (`none`); otherwise the last
`"min"`/`"max"` values seen are kept. -/
def scanLimits : List (String × PyVal) → Option ℚ × Option ℚ →
    Option (Option ℚ × Option ℚ)
  | [], acc => some acc
  | (k, v) :: rest, (mn, mx) =>
    if ¬is_numeric v then
      none
    else if k = "min" then
      match v with
      | .num q => scanLimits rest (some q, mx)
      | .str _ => none
    else if k = "max" then
      match v with
      | .num q => scanLimits rest (mn, some q)
      | .str _ => none
    else
      none

/-- Scan of all bound dictionaries of a range target, starting from
`min_val = None`, `max_val = None`. -/
def parseRange (limits : List (List (String × PyVal))) :
    Option (Option ℚ × Option ℚ) :=
  limits.foldlM (fun acc limit => scanLimits limit acc) (none, none)

/-- Evaluation of one requirement of `metric_assessment` against the metric's
value: `none` models the "Invalid target value" error paths (which the source
follows with `return`), `some b` the PASSED/FAILED log outcomes. -/
def evalOneReq (value : ℚ) (req : MetricReq) : Option Bool :=
  match req.target with
  | .range limits =>
    match parseRange limits with
    | none => none
    | some (mn, mx) =>
      some (check_value_params_range value mn mx req.comparator req.tolerance)
  | .scalar v =>
    match v with
    | .num t => some (check_value_params_scalar value t req.tolerance req.comparator)
    | .str _ => none

/-- Logged outcome of `metric_assessment` for one metric spec or requirement
(requirement indices are 0-based here; the log text prints `i+1`). -/
inductive MAOutcome where
  | unknownMetric (metric : String)
  | passed (metric : String) (i : ℕ)
  | failed (metric : String) (i : ℕ)
  | invalidTarget (metric : String) (i : ℕ)
deriving DecidableEq, Repr

/-- Requirement loop of `metric_assessment` for one metric, from requirement
index `i` on: each valid requirement logs PASSED or FAILED and `continue`s;
an invalid target logs the error and `return`s from the whole method, which is
tracked by the `Bool` component (`true` iff the loop ran to completion). -/
def metricReqLoop (value : ℚ) (name : String) (i : ℕ) :
    List MetricReq → List MAOutcome × Bool
  | [] => ([], true)
  | req :: rest =>
    match evalOneReq value req with
    | none => ([.invalidTarget name i], false)
    | some b =>
      let res := metricReqLoop value name (i + 1) rest
      ((if b then .passed name i else .failed name i) :: res.1, res.2)

/-- Embedding of `metric_assessment`: iterate over
`self.metrics_assessment_pool`; an unknown metric name logs an error and
`continue`s to the next spec; an invalid target inside the requirement loop
`return`s, ending the whole method. The returned list is the sequence of
logged outcomes. -/
def metric_assessment (m : Metrics) : List MetricSpec → List MAOutcome
  | [] => []
  | spec :: rest =>
    match metricsLookup m spec.metric with
    | none => .unknownMetric spec.metric :: metric_assessment m rest
    | some value =>
      let res := metricReqLoop value spec.metric 0 spec.requirements
      if res.2 then res.1 ++ metric_assessment m rest else res.1

/-- Requirement dictionary as loaded from configuration, before
`assessment_object_allocator` applies `setdefault`: `none` models an absent
key. For `timein`/`timeout` the inner `Option` is the value itself (`none`
being Python's `None`). The other keys of the dictionary (such as `target`)
are not touched by `setdefault` and are elided. -/
structure RawReq where
  mode : Option String
  temporal_consistency : Option Bool
  timein : Option (Option ℚ)
  timeout : Option (Option ℚ)
  tolerance : Option ℚ
  comparator : Option String
deriving DecidableEq, Repr

/-- Requirement dictionary after the `setdefault` calls: every defaulted key
is present. -/
structure FilledReq where
  mode : String
  temporal_consistency : Bool
  timein : Option ℚ
  timeout : Option ℚ
  tolerance : ℚ
  comparator : String
deriving DecidableEq, Repr

/-- Embedding of the `setdefault` block of `assessment_object_allocator` for a
topic requirement: `mode` defaults to `"exists"`, `temporal_consistency` to
`False`, `timein`/`timeout` to `None`, `tolerance` to `0.05`, `comparator` to
`"="`; a key already present keeps its value. -/
def topic_req_defaults (r : RawReq) : FilledReq :=
  { mode := r.mode.getD "exists"
    temporal_consistency := r.temporal_consistency.getD false
    timein := r.timein.getD none
    timeout := r.timeout.getD none
    tolerance := r.tolerance.getD (5 / 100)
    comparator := r.comparator.getD "=" }

/-- Embedding of the `setdefault` block of `assessment_object_allocator` for a
metric requirement: identical to the topic block except that `mode` defaults
to `"total"`. -/
def metric_req_defaults (r : RawReq) : FilledReq :=
  { mode := r.mode.getD "total"
    temporal_consistency := r.temporal_consistency.getD false
    timein := r.timein.getD none
    timeout := r.timeout.getD none
    tolerance := r.tolerance.getD (5 / 100)
    comparator := r.comparator.getD "=" }

/-- Well-formedness of one metric spec with respect to the `metrics`
dictionary: its name is a known metric key and every requirement has a valid
target (no "Invalid target value" path is taken). -/
def specOk (m : Metrics) (s : MetricSpec) : Bool :=
  match metricsLookup m s.metric with
  | none => false
  | some v => s.requirements.all fun r => (evalOneReq v r).isSome

/-! ## Theorems -/

/-- A single `publish_global_event` keeps the queue within capacity 10. -/
theorem publish_global_event_length_le (q : List GlobalEvents) (e : GlobalEvents)
    (h : q.length ≤ 10) : (publish_global_event q e).length ≤ 10 := by
  simp only [publish_global_event]
  split <;> simp_all

/-- Folding `publish_global_event` over a list of events from a queue within
capacity keeps exactly the 10 most recent of all events seen. -/
theorem foldl_publish_global_event (evs : List GlobalEvents) :
    ∀ q : List GlobalEvents, q.length ≤ 10 →
      List.foldl publish_global_event q evs =
        (q ++ evs).drop (q.length + evs.length - 10) := by
  induction evs with
  | nil =>
    intro q h
    simp only [List.foldl_nil, List.append_nil, List.length_nil, Nat.add_zero]
    rw [Nat.sub_eq_zero_of_le h, List.drop_zero]
  | cons e evs ih =>
    intro q h
    rw [List.foldl_cons]
    rcases Nat.lt_or_ge q.length 10 with hlt | hge
    · have hpub : publish_global_event q e = q ++ [e] := by
        simp only [publish_global_event]
        rw [if_neg]
        simp
        omega
      rw [hpub, ih (q ++ [e]) (by simp; omega)]
      have e1 : (q ++ [e]) ++ evs = q ++ e :: evs := by simp
      have e2 : (q ++ [e]).length + evs.length - 10 =
          q.length + (e :: evs).length - 10 := by
        simp
        omega
      rw [e1, e2]
    · have h10 : q.length = 10 := le_antisymm h hge
      have hpub : publish_global_event q e = (q ++ [e]).drop 1 := by
        simp only [publish_global_event]
        rw [if_pos]
        simp [h10]
      obtain ⟨x, q', rfl⟩ : ∃ x q', q = x :: q' := by
        cases q with
        | nil => simp at h10
        | cons x q' => exact ⟨x, q', rfl⟩
      have h9 : q'.length = 9 := by simpa using h10
      rw [hpub]
      simp only [List.cons_append, List.drop_succ_cons, List.drop_zero]
      rw [ih (q' ++ [e]) (by simp [h9])]
      have e1 : (q' ++ [e]) ++ evs = q' ++ e :: evs := by simp
      have e2 : (q' ++ [e]).length + evs.length - 10 = evs.length := by
        simp [h9]
      have e3 : (x :: q').length + (e :: evs).length - 10 = evs.length + 1 := by
        simp only [h10, List.length_cons]
        omega
      rw [e1, e2, e3, List.drop_succ_cons]

/-- C3: starting from an empty event log, appending `N > 10` events via
`publish_global_event` leaves exactly the last 10 appended events, in arrival
order, and the log's length is exactly 10. -/
theorem C3_event_log_keeps_last_ten (evs : List GlobalEvents)
    (h : 10 < evs.length) :
    List.foldl publish_global_event [] evs = evs.drop (evs.length - 10) ∧
      (List.foldl publish_global_event [] evs).length = 10 := by
  have key := foldl_publish_global_event evs [] (by simp)
  simp only [List.nil_append, List.length_nil, Nat.zero_add] at key
  refine ⟨key, ?_⟩
  rw [key, List.length_drop]
  omega

/-- Witness for C3 at a concrete sequence of 11 events. -/
theorem C3_event_log_keeps_last_ten_witness :
    List.foldl publish_global_event []
        [GlobalEvents.NODE_ADDED, .ASSESSMENT_PAUSED, .ASSESSMENT_RESUMED,
         .ASSESSMENT_PAUSED, .ASSESSMENT_RESUMED, .NODE_REMOVED, .NODE_ADDED,
         .ASSESSMENT_PAUSED, .ASSESSMENT_RESUMED, .NODE_REMOVED, .NODE_ADDED] =
      [GlobalEvents.NODE_ADDED, .ASSESSMENT_PAUSED, .ASSESSMENT_RESUMED,
       .ASSESSMENT_PAUSED, .ASSESSMENT_RESUMED, .NODE_REMOVED, .NODE_ADDED,
       .ASSESSMENT_PAUSED, .ASSESSMENT_RESUMED, .NODE_REMOVED, .NODE_ADDED].drop 1 ∧
    (List.foldl publish_global_event []
        [GlobalEvents.NODE_ADDED, .ASSESSMENT_PAUSED, .ASSESSMENT_RESUMED,
         .ASSESSMENT_PAUSED, .ASSESSMENT_RESUMED, .NODE_REMOVED, .NODE_ADDED,
         .ASSESSMENT_PAUSED, .ASSESSMENT_RESUMED, .NODE_REMOVED, .NODE_ADDED]).length = 10 :=
  C3_event_log_keeps_last_ten _ (by decide)

/-- C1: refuting evaluation for the claimed division-by-zero guard. With
`start_time = 5` and the current time also `5` (the target appeared and
disappeared within the same time reading), `execution_time` is `0` and
`end_assessment` computes `number_of_messages / execution_time` unguarded:
Python raises `ZeroDivisionError` (modelled by `none`) instead of reporting a
sentinel undefined frequency. -/
theorem C1_end_assessment_raises_on_zero_execution_time :
    end_assessment { initEngineState with is_running := true, start_time := 5 }
      5 [20] = none := by
  simp [end_assessment, get_time_elapsed, initEngineState]

/-- C5: on entry to `Ended` with a nonzero elapsed time, the final report's
metrics satisfy `execution_time = now − start_time`, `number_of_messages =
aggregate_message_counts` (the sum of the per-channel message counts), and
`frequency = number_of_messages / execution_time`. -/
theorem C5_end_assessment_report_metrics (s : EngineState) (now : ℚ)
    (pool : List ℕ) (h : now - s.start_time ≠ 0) :
    ∃ s', end_assessment s now pool = some s' ∧
      s'.execution_time = now - s.start_time ∧
      s'.number_of_messages = aggregate_message_counts pool ∧
      s'.frequency = (s'.number_of_messages : ℚ) / s'.execution_time ∧
      s'.assessment_over = true := by
  unfold end_assessment get_time_elapsed
  rw [if_neg h]
  exact ⟨_, rfl, rfl, rfl, rfl, rfl⟩

/-- Witness for C5: the spec's end-to-end scenario — target present for 10
time units, one channel with 12 and another with 8 messages. -/
theorem C5_end_assessment_report_metrics_witness :
    ∃ s', end_assessment { initEngineState with is_running := true } 10 [12, 8] = some s' ∧
      s'.execution_time = 10 - ({ initEngineState with is_running := true } : EngineState).start_time ∧
      s'.number_of_messages = aggregate_message_counts [12, 8] ∧
      s'.frequency = (s'.number_of_messages : ℚ) / s'.execution_time ∧
      s'.assessment_over = true :=
  C5_end_assessment_report_metrics _ 10 [12, 8] (by norm_num [initEngineState])

/-- C7: evaluation of `resume` on a paused state. The transition to `Running`
does happen, but the `ASSESSMENT_RESUMED` event is never appended: `resume`
calls the coroutine function `publish_global_event` without `await`, so its
body never runs and the queue is returned unchanged, contradicting the claimed
append. -/
theorem C7_resume_transitions_but_never_appends_event (s : EngineState)
    (h : s.is_paused = true) :
    (resume s).is_running = true ∧ (resume s).is_paused = false ∧
      (resume s).global_event_queue = s.global_event_queue := by
  simp [resume, h]

/-- Witness for C7 at a concrete paused state with an empty event queue. -/
theorem C7_resume_transitions_but_never_appends_event_witness :
    (resume { initEngineState with is_running := true, is_paused := true }).is_running = true ∧
    (resume { initEngineState with is_running := true, is_paused := true }).is_paused = false ∧
    (resume { initEngineState with is_running := true, is_paused := true }).global_event_queue =
      ({ initEngineState with is_running := true, is_paused := true } : EngineState).global_event_queue :=
  C7_resume_transitions_but_never_appends_event _ rfl

/-- C10: `pause` on a non-running engine and `resume` on a non-paused engine
leave the whole engine state (in particular `is_paused`, `is_running`,
`assessment_over` and the event queue) unchanged, and both operations are
idempotent from any state. -/
theorem C10_pause_resume_frame_and_idempotent (s : EngineState) :
    (s.is_running = false → pause s = s) ∧
    (s.is_paused = false → resume s = s) ∧
    pause (pause s) = pause s ∧
    resume (resume s) = resume s := by
  refine ⟨fun h => by simp [pause, h], fun h => by simp [resume, h], ?_, ?_⟩
  · unfold pause
    by_cases h : s.is_running <;> simp [h]
  · unfold resume
    by_cases h : s.is_paused <;> simp [h]

/-- Witness for C10 at the freshly initialized engine state. -/
theorem C10_pause_resume_frame_and_idempotent_witness :
    pause initEngineState = initEngineState ∧
    resume initEngineState = initEngineState ∧
    pause (pause initEngineState) = pause initEngineState ∧
    resume (resume initEngineState) = resume initEngineState := by
  obtain ⟨h₁, h₂, h₃, h₄⟩ := C10_pause_resume_frame_and_idempotent initEngineState
  exact ⟨h₁ rfl, h₂ rfl, h₃, h₄⟩

/-- Running `async_run` over concatenated interaction lists sequences the two
runs (a raised exception in the first part propagates). -/
theorem async_run_append (s : EngineState) (l₁ l₂ : List Act) :
    async_run s (l₁ ++ l₂) =
      (async_run s l₁).bind fun s' => async_run s' l₂ := by
  induction l₁ generalizing s with
  | nil => simp [async_run]
  | cons a l₁ ih =>
    simp only [List.cons_append, async_run]
    cases h : async_run_tick s a with
    | none => rfl
    | some s' => simp [ih s']

/-- C2 (as stated): refuting execution. The target appears at time 0, is
removed at time 2 (entering `Ended` with events `[NODE_ADDED, NODE_REMOVED]`),
and reappears at time 5: the third poll leaves the state untouched — the loop
guard `not self.assessment_over` has failed, no new cycle begins and no new
`NODE_ADDED` is published. -/
theorem C2_counterexample_no_new_cycle_after_ended :
    (async_run initEngineState [.poll 0 true [], .poll 2 false [7], .poll 5 true []] =
      async_run initEngineState [.poll 0 true [], .poll 2 false [7]]) ∧
    (async_run initEngineState [.poll 0 true [], .poll 2 false [7], .poll 5 true []]).map
        (fun s => (s.assessment_over, s.is_running, s.global_event_queue)) =
      some (true, false, [GlobalEvents.NODE_ADDED, GlobalEvents.NODE_REMOVED]) := by
  constructor <;>
    simp [async_run, async_run_tick, end_assessment, get_time_elapsed,
      aggregate_message_counts, publishEvent, publish_global_event,
      start_assessment, initEngineState]

/-- C2 (amended): entry into `Ended` permanently terminates the polling loop.
`end_assessment` leaves the engine with `assessment_over = True` and both
flags cleared, and from any such state every further interaction — polling
ticks with the target present or absent, `pause` and `resume` calls — leaves
the state unchanged: the engine is single-shot per `run()` invocation and a
reappearing target does not start a fresh cycle. -/
theorem C2_amended_ended_state_is_absorbing (s : EngineState) (acts : List Act)
    (h₁ : s.assessment_over = true) (h₂ : s.is_running = false)
    (h₃ : s.is_paused = false) :
    async_run s acts = some s := by
  induction acts with
  | nil => rfl
  | cons a acts ih =>
    cases a with
    | poll now t pool => simp [async_run, async_run_tick, h₁, ih]
    | pauseCall => simp [async_run, async_run_tick, pause, h₂, ih]
    | resumeCall => simp [async_run, async_run_tick, resume, h₃, ih]

/-- Witness for the amended C2 at a concrete ended state and interaction
list containing a reappearing target. -/
theorem C2_amended_ended_state_is_absorbing_witness :
    async_run { initEngineState with assessment_over := true }
      [.poll 9 true [3], .pauseCall, .resumeCall] =
      some { initEngineState with assessment_over := true } :=
  C2_amended_ended_state_is_absorbing _ _ rfl rfl rfl

/-- C6 (as stated): refuting execution. The claimed lifecycle — target appears
(tick at time 0), explicit pause, then the target disappears (tick at time 3)
— with two polling ticks spent in `Paused` while the target is present logs
`ASSESSMENT_PAUSED` on each of those ticks: the event log is
`[NODE_ADDED, ASSESSMENT_PAUSED, ASSESSMENT_PAUSED, NODE_REMOVED]`, not the
claimed three-event sequence. -/
theorem C6_counterexample_paused_logged_each_tick :
    (async_run initEngineState
        [.poll 0 true [], .pauseCall, .poll 1 true [], .poll 2 true [],
         .poll 3 false [5]]).map (fun s => s.global_event_queue) =
      some [GlobalEvents.NODE_ADDED, .ASSESSMENT_PAUSED, .ASSESSMENT_PAUSED,
        .NODE_REMOVED] ∧
    [GlobalEvents.NODE_ADDED, .ASSESSMENT_PAUSED, .ASSESSMENT_PAUSED, .NODE_REMOVED] ≠
      [GlobalEvents.NODE_ADDED, .ASSESSMENT_PAUSED, .NODE_REMOVED] := by
  refine ⟨?_, by decide⟩
  simp [async_run, async_run_tick, end_assessment, get_time_elapsed,
    aggregate_message_counts, publishEvent, publish_global_event, pause,
    start_assessment, initEngineState]

/-- While the engine is running, paused and the target stays present, every
polling tick publishes one more `ASSESSMENT_PAUSED` event (no eviction as long
as the queue stays within capacity). -/
theorem async_run_paused_ticks (k : ℕ) :
    ∀ s : EngineState, s.is_running = true → s.is_paused = true →
      s.assessment_over = false → s.global_event_queue.length + k ≤ 10 →
      ∀ (now : ℚ) (pool : List ℕ),
        async_run s (List.replicate k (.poll now true pool)) =
          some { s with global_event_queue :=
            s.global_event_queue ++ List.replicate k .ASSESSMENT_PAUSED } := by
  induction k with
  | zero =>
    intro s h₁ h₂ h₃ h₄ now pool
    simp [async_run]
  | succ k ih =>
    intro s h₁ h₂ h₃ h₄ now pool
    rw [List.replicate_succ]
    have htick : async_run_tick s (.poll now true pool) =
        some (publishEvent s .ASSESSMENT_PAUSED) := by
      simp [async_run_tick, h₁, h₂, h₃]
    have hpub : publishEvent s .ASSESSMENT_PAUSED =
        { s with global_event_queue :=
          s.global_event_queue ++ [.ASSESSMENT_PAUSED] } := by
      simp only [publishEvent, publish_global_event]
      rw [if_neg]
      simp
      omega
    have ihs := ih { s with global_event_queue :=
        s.global_event_queue ++ [.ASSESSMENT_PAUSED] } h₁ h₂ h₃
      (by simp; omega) now pool
    simp only [async_run, htick]
    rw [hpub, ihs]
    simp [List.replicate_succ]

/-- C6 (amended): for the lifecycle `Idle → (target appears) → Running →
(pause) → Paused → (target disappears) → Ended` with `k` polling ticks spent
in `Paused` while the target is present (`k ≤ 8` so that the capacity-10 log
evicts nothing), the event log records `NODE_ADDED` once, then
`ASSESSMENT_PAUSED` once per paused polling tick, then `NODE_REMOVED` once:
`NodeAdded` and `NodeRemoved` are published exactly once, but
`AssessmentPaused` is republished on every paused tick rather than once. -/
theorem C6_amended_paused_event_once_per_tick (k : ℕ) (now₁ now₂ : ℚ)
    (pool : List ℕ) (hk : k ≤ 8) (ht : now₂ ≠ 0) :
    ∃ s', async_run initEngineState
        ([.poll 0 true [], .pauseCall] ++
          List.replicate k (.poll now₁ true []) ++ [.poll now₂ false pool]) =
        some s' ∧
      s'.global_event_queue =
        GlobalEvents.NODE_ADDED ::
          (List.replicate k .ASSESSMENT_PAUSED ++ [.NODE_REMOVED]) := by
  have h12 : async_run initEngineState [.poll 0 true [], .pauseCall] =
      some ⟨true, true, false, [.NODE_ADDED], 0, 0, 0, 0⟩ := by
    simp [async_run, async_run_tick, publishEvent, publish_global_event, pause,
      start_assessment, initEngineState]
  have hmid : async_run ⟨true, true, false, [.NODE_ADDED], 0, 0, 0, 0⟩
      (List.replicate k (.poll now₁ true [])) =
      some ⟨true, true, false,
        .NODE_ADDED :: List.replicate k .ASSESSMENT_PAUSED, 0, 0, 0, 0⟩ :=
    async_run_paused_ticks k ⟨true, true, false, [.NODE_ADDED], 0, 0, 0, 0⟩
      rfl rfl rfl (by simp; omega) now₁ []
  have hlast : async_run
      ⟨true, true, false,
        .NODE_ADDED :: List.replicate k .ASSESSMENT_PAUSED, 0, 0, 0, 0⟩
      [.poll now₂ false pool] =
      some ⟨false, false, true,
        .NODE_ADDED :: (List.replicate k .ASSESSMENT_PAUSED ++ [.NODE_REMOVED]),
        0, now₂ - 0, aggregate_message_counts pool,
        (aggregate_message_counts pool : ℚ) / (now₂ - 0)⟩ := by
    have hq : publish_global_event
        (GlobalEvents.NODE_ADDED :: List.replicate k .ASSESSMENT_PAUSED)
        .NODE_REMOVED =
        .NODE_ADDED :: (List.replicate k .ASSESSMENT_PAUSED ++ [.NODE_REMOVED]) := by
      simp only [publish_global_event]
      rw [if_neg]
      · simp
      · simp
        omega
    simp [async_run, async_run_tick, end_assessment, get_time_elapsed,
      publishEvent, hq, sub_zero, ht]
  rw [List.append_assoc, async_run_append, h12, Option.some_bind,
    async_run_append, hmid, Option.some_bind, hlast]
  exact ⟨_, rfl, rfl⟩

/-- Witness for the amended C6 with two paused polling ticks. -/
theorem C6_amended_paused_event_once_per_tick_witness :
    ∃ s', async_run initEngineState
        ([.poll 0 true [], .pauseCall] ++
          List.replicate 2 (.poll 1 true []) ++ [.poll 3 false [5]]) =
        some s' ∧
      s'.global_event_queue =
        GlobalEvents.NODE_ADDED ::
          (List.replicate 2 .ASSESSMENT_PAUSED ++ [.NODE_REMOVED]) :=
  C6_amended_paused_event_once_per_tick 2 1 3 [5] (by norm_num) (by norm_num)

/-- Hitting a requirement with an invalid target aborts the requirement loop:
the preceding valid requirements produce their outcomes, the invalid one logs
the error, and the loop reports non-completion (the `return` path). -/
theorem metricReqLoop_invalid (value : ℚ) (name : String) (bad : MetricReq)
    (hbad : evalOneReq value bad = none) :
    ∀ (good rest : List MetricReq) (i : ℕ),
      (∀ r ∈ good, (evalOneReq value r).isSome) →
      metricReqLoop value name i (good ++ bad :: rest) =
        ((metricReqLoop value name i good).1 ++
          [.invalidTarget name (i + good.length)], false) := by
  intro good
  induction good with
  | nil =>
    intro rest i _
    simp [metricReqLoop, hbad]
  | cons r good ih =>
    intro rest i hgood
    obtain ⟨b, hb⟩ := Option.isSome_iff_exists.mp (hgood r (by simp))
    simp only [List.cons_append, metricReqLoop, hb, List.append_eq]
    rw [ih rest (i + 1) (fun r hr => hgood r (by simp [hr]))]
    have harith : i + 1 + good.length = i + (good.length + 1) := by omega
    simp [harith]

/-- C4 (as stated): refuting evaluation. The pool holds two metric specs; the
first (`execution_time`) has a range-target requirement whose bound dictionary
uses the key `"lo"` (neither `min` nor `max`), the second (`frequency`) has a
valid scalar requirement. `metric_assessment` logs the invalid-target error
and `return`s: the output contains no outcome at all for the subsequent
`frequency` spec, so evaluation does not continue with the next metric. -/
theorem C4_counterexample_invalid_bound_skips_later_metrics :
    metric_assessment ⟨3, 20, 2⟩
        [⟨"execution_time", [⟨.range [[("lo", .num 1)]], 5 / 100, "="⟩]⟩,
         ⟨"frequency", [⟨.scalar (.num 2), 5 / 100, "="⟩]⟩] =
      [.invalidTarget "execution_time" 0] ∧
    ∀ i, MAOutcome.passed "frequency" i ∉ [MAOutcome.invalidTarget "execution_time" 0] ∧
      MAOutcome.failed "frequency" i ∉ [MAOutcome.invalidTarget "execution_time" 0] ∧
      MAOutcome.invalidTarget "frequency" i ∉ [MAOutcome.invalidTarget "execution_time" 0] := by
  refine ⟨by decide, ?_⟩
  intro i
  refine ⟨by simp, by simp, by simp⟩

/-- C4 (amended): when a range-target requirement of a metric contains a
non-numeric bound or a key other than `min`/`max`, `metric_assessment` logs
the outcomes of that metric's earlier valid requirements, logs the
invalid-target error for the offending requirement, and returns immediately:
the remaining requirements of that metric AND the requirements of every
subsequent metric in the pool are all skipped. -/
theorem C4_amended_invalid_bound_aborts_whole_assessment
    (m : Metrics) (name : String) (value : ℚ)
    (good : List MetricReq) (bad : MetricReq) (rest : List MetricReq)
    (post : List MetricSpec)
    (hlookup : metricsLookup m name = some value)
    (hgood : ∀ r ∈ good, (evalOneReq value r).isSome)
    (hbad : evalOneReq value bad = none) :
    metric_assessment m (⟨name, good ++ bad :: rest⟩ :: post) =
      (metricReqLoop value name 0 good).1 ++ [.invalidTarget name good.length] := by
  simp only [metric_assessment, hlookup]
  rw [metricReqLoop_invalid value name bad hbad good rest 0 hgood]
  simp

/-- Witness for the amended C4: a non-numeric `max` bound in the first
requirement of `number_of_messages` aborts everything, including the
subsequent `frequency` spec. -/
theorem C4_amended_invalid_bound_aborts_whole_assessment_witness :
    metric_assessment ⟨3, 20, 2⟩
        [⟨"number_of_messages",
          [⟨.range [[("max", .str "high")]], 1 / 10, "="⟩,
           ⟨.scalar (.num 20), 1 / 10, "="⟩]⟩,
         ⟨"frequency", [⟨.scalar (.num 2), 5 / 100, "="⟩]⟩] =
      (metricReqLoop 20 "number_of_messages" 0 []).1 ++
        [.invalidTarget "number_of_messages" 0] :=
  C4_amended_invalid_bound_aborts_whole_assessment ⟨3, 20, 2⟩
    "number_of_messages" 20 [] ⟨.range [[("max", .str "high")]], 1 / 10, "="⟩
    [⟨.scalar (.num 20), 1 / 10, "="⟩]
    [⟨"frequency", [⟨.scalar (.num 2), 5 / 100, "="⟩]⟩]
    rfl (by simp) rfl

/-- A requirement list with only valid targets runs to completion and
produces exactly one outcome per requirement. -/
theorem metricReqLoop_complete (value : ℚ) (name : String) :
    ∀ (reqs : List MetricReq) (i : ℕ),
      (∀ r ∈ reqs, (evalOneReq value r).isSome) →
      (metricReqLoop value name i reqs).2 = true ∧
        (metricReqLoop value name i reqs).1.length = reqs.length := by
  intro reqs
  induction reqs with
  | nil =>
    intro i _
    simp [metricReqLoop]
  | cons r reqs ih =>
    intro i h
    obtain ⟨b, hb⟩ := Option.isSome_iff_exists.mp (h r (by simp))
    have hrest := ih (i + 1) (fun r hr => h r (by simp [hr]))
    simp [metricReqLoop, hb, hrest.1, hrest.2]

/-- A pool of well-formed metric specs is assessed in full: one logged
outcome per requirement of every spec. -/
theorem metric_assessment_complete (m : Metrics) :
    ∀ pool : List MetricSpec, (∀ s ∈ pool, specOk m s = true) →
      (metric_assessment m pool).length =
        (pool.map fun s => s.requirements.length).sum := by
  intro pool
  induction pool with
  | nil =>
    intro _
    simp [metric_assessment]
  | cons spec rest ih =>
    intro h
    have hs := h spec (by simp)
    unfold specOk at hs
    cases hl : metricsLookup m spec.metric with
    | none =>
      rw [hl] at hs
      simp at hs
    | some v =>
      rw [hl] at hs
      have hall : ∀ r ∈ spec.requirements, (evalOneReq v r).isSome := by
        intro r hr
        simpa using List.all_eq_true.mp hs r hr
      have hc := metricReqLoop_complete v spec.metric spec.requirements 0 hall
      simp [metric_assessment, hl, hc.1, hc.2,
        ih (fun s hs' => h s (by simp [hs']))]

/-- C8: a metric spec whose name is not a key of the `metrics` dictionary
logs one unknown-metric error and evaluation continues with the next spec
exactly as it would without the unknown spec; in particular, when the
remaining specs are well formed (known names, valid targets — the load-time
invariant), every one of their requirements is still evaluated, producing one
outcome each. -/
theorem C8_unknown_metric_is_nonfatal (m : Metrics) (spec : MetricSpec)
    (post : List MetricSpec) (h : metricsLookup m spec.metric = none) :
    metric_assessment m (spec :: post) =
      .unknownMetric spec.metric :: metric_assessment m post ∧
    ((∀ s ∈ post, specOk m s = true) →
      (metric_assessment m post).length =
        (post.map fun s => s.requirements.length).sum) :=
  ⟨by simp [metric_assessment, h], metric_assessment_complete m post⟩

/-- Witness for C8: the unknown metric name `latency` followed by a valid
`frequency` spec whose single requirement is still evaluated. -/
theorem C8_unknown_metric_is_nonfatal_witness :
    metric_assessment ⟨3, 20, 2⟩
        [⟨"latency", [⟨.scalar (.num 1), 5 / 100, "="⟩]⟩,
         ⟨"frequency", [⟨.scalar (.num 2), 5 / 100, "="⟩]⟩] =
      .unknownMetric "latency" ::
        metric_assessment ⟨3, 20, 2⟩
          [⟨"frequency", [⟨.scalar (.num 2), 5 / 100, "="⟩]⟩] ∧
    (metric_assessment ⟨3, 20, 2⟩
        [⟨"frequency", [⟨.scalar (.num 2), 5 / 100, "="⟩]⟩]).length = 1 := by
  have h := C8_unknown_metric_is_nonfatal ⟨3, 20, 2⟩
    ⟨"latency", [⟨.scalar (.num 1), 5 / 100, "="⟩]⟩
    [⟨"frequency", [⟨.scalar (.num 2), 5 / 100, "="⟩]⟩] rfl
  exact ⟨h.1, by simpa using h.2 (by decide)⟩

/-- C9 (as stated): refuting evaluation. A metric requirement supplied with
none of the defaultable fields receives `mode = "total"` from
`assessment_object_allocator`, not the claimed `mode = "exists"` (which only
topic requirements receive). -/
theorem C9_counterexample_metric_mode_defaults_to_total :
    (metric_req_defaults ⟨none, none, none, none, none, none⟩).mode = "total" ∧
    "total" ≠ "exists" :=
  ⟨rfl, by decide⟩

/-- C9 (amended): for every requirement loaded from configuration, each field
not supplied is filled with `temporal_consistency = false`, `timein = null`,
`timeout = null`, `tolerance = 0.05`, `comparator = "="`, and `mode`
defaulting to `"exists"` for a channel (topic) requirement but `"total"` for a
metric requirement; every supplied field is left unchanged by both. -/
theorem C9_amended_requirement_defaults (r : RawReq) :
    (r.mode = none → (topic_req_defaults r).mode = "exists" ∧
      (metric_req_defaults r).mode = "total") ∧
    (∀ v, r.mode = some v → (topic_req_defaults r).mode = v ∧
      (metric_req_defaults r).mode = v) ∧
    (r.temporal_consistency = none →
      (topic_req_defaults r).temporal_consistency = false ∧
      (metric_req_defaults r).temporal_consistency = false) ∧
    (∀ b, r.temporal_consistency = some b →
      (topic_req_defaults r).temporal_consistency = b ∧
      (metric_req_defaults r).temporal_consistency = b) ∧
    (r.timein = none → (topic_req_defaults r).timein = none ∧
      (metric_req_defaults r).timein = none) ∧
    (∀ x, r.timein = some x → (topic_req_defaults r).timein = x ∧
      (metric_req_defaults r).timein = x) ∧
    (r.timeout = none → (topic_req_defaults r).timeout = none ∧
      (metric_req_defaults r).timeout = none) ∧
    (∀ x, r.timeout = some x → (topic_req_defaults r).timeout = x ∧
      (metric_req_defaults r).timeout = x) ∧
    (r.tolerance = none → (topic_req_defaults r).tolerance = 5 / 100 ∧
      (metric_req_defaults r).tolerance = 5 / 100) ∧
    (∀ q, r.tolerance = some q → (topic_req_defaults r).tolerance = q ∧
      (metric_req_defaults r).tolerance = q) ∧
    (r.comparator = none → (topic_req_defaults r).comparator = "=" ∧
      (metric_req_defaults r).comparator = "=") ∧
    (∀ c, r.comparator = some c → (topic_req_defaults r).comparator = c ∧
      (metric_req_defaults r).comparator = c) := by
  refine ⟨fun h => ?_, fun v h => ?_, fun h => ?_, fun b h => ?_, fun h => ?_,
    fun x h => ?_, fun h => ?_, fun x h => ?_, fun h => ?_, fun q h => ?_,
    fun h => ?_, fun c h => ?_⟩ <;>
    simp [topic_req_defaults, metric_req_defaults, h]

/-- Witness for the amended C9 at a concrete requirement with a mix of
supplied and missing fields. -/
theorem C9_amended_requirement_defaults_witness :
    (topic_req_defaults ⟨none, some true, some (some 3), none, none, some "<"⟩).mode = "exists" ∧
    (metric_req_defaults ⟨none, some true, some (some 3), none, none, some "<"⟩).mode = "total" ∧
    (topic_req_defaults ⟨none, some true, some (some 3), none, none, some "<"⟩).temporal_consistency = true ∧
    (topic_req_defaults ⟨none, some true, some (some 3), none, none, some "<"⟩).timein = some 3 ∧
    (topic_req_defaults ⟨none, some true, some (some 3), none, none, some "<"⟩).timeout = none ∧
    (topic_req_defaults ⟨none, some true, some (some 3), none, none, some "<"⟩).tolerance = 5 / 100 ∧
    (topic_req_defaults ⟨none, some true, some (some 3), none, none, some "<"⟩).comparator = "<" := by
  obtain ⟨h₁, h₂, h₃, h₄, h₅, h₆, h₇, h₈, h₉, h₁₀, h₁₁, h₁₂⟩ :=
    C9_amended_requirement_defaults ⟨none, some true, some (some 3), none, none, some "<"⟩
  exact ⟨(h₁ rfl).1, (h₁ rfl).2, (h₄ true rfl).1, (h₆ (some 3) rfl).1,
    (h₇ rfl).1, (h₉ rfl).1, (h₁₂ "<" rfl).1⟩

end RuntimeAssessment
